import Mathlib

/-!
Verification development for the tipslap-api tip/transaction ledger engine.

The definitions below are a shallow embedding of the TypeScript services
(`services/transactions.ts`, `services/payments.ts`, the `/transactions/tip`
route handler and the `/payments/webhook` handler).  Monetary values are
modelled as exact rationals; the JavaScript expression
`Math.round(amount * 100) / 100` (half-up rounding to cents) is modelled by
`jsRound`.  Database state (users, transactions, stripe events) is explicit;
each service operation is a pure function from state to `Except`-wrapped
state, mirroring the all-or-nothing semantics of the `prisma.$transaction`
blocks in the source.
-/

namespace TipSlap

abbrev UserId := String

/-- Half-up rounding to two decimal places, the exact-arithmetic reading of
the source expression `Math.round(amount * 100) / 100` (JavaScript
`Math.round` rounds half towards positive infinity). -/
def jsRound (q : ℚ) : ℚ := ((⌊q * 100 + 1 / 2⌋ : ℤ) : ℚ) / 100

/-- Transaction kinds, from `types/transaction.ts` (`TransactionType`). -/
inductive TransactionType where
  | ADD_FUNDS
  | SEND_TIP
  | RECEIVE_TIP
  | WITHDRAW
deriving DecidableEq, Repr

/-- Transaction statuses, from `types/transaction.ts` (`TransactionStatus`). -/
inductive TransactionStatus where
  | PENDING
  | COMPLETED
  | FAILED
deriving DecidableEq, Repr

/-- The user row fields relevant to the ledger engine (Prisma `User`). -/
structure User where
  id : UserId
  balance : ℚ
  canGiveTips : Bool
  canReceiveTips : Bool
  userAlias : String
  fullName : String
  stripeCustomerId : Option String
  stripeAccountId : Option String
deriving DecidableEq, Repr

/-- The transaction row (Prisma `Transaction`).  `createdAt` is a logical
timestamp equal to the row id (rows are appended in creation order). -/
structure Transaction where
  id : Nat
  type : TransactionType
  amount : ℚ
  senderId : Option UserId
  receiverId : Option UserId
  status : TransactionStatus
  description : Option String
  stripePaymentIntentId : Option String
  stripePayoutId : Option String
deriving DecidableEq, Repr

/-- The webhook idempotency record (Prisma `StripeEvent`). -/
structure StripeEvent where
  stripeEventId : String
  eventType : String
  processed : Bool
deriving DecidableEq, Repr

/-- The ledger store: users, the append-only transaction log (list order is
creation order, `nextTxId` supplies fresh row ids), and stored webhook
events. -/
structure LedgerState where
  users : List User
  transactions : List Transaction
  nextTxId : Nat
  stripeEvents : List StripeEvent
deriving DecidableEq, Repr

/-- The error taxonomy: one constructor per distinct `throw new Error(...)`
message in the modelled services, plus the route-level self-tip rejection. -/
inductive TxError where
  | TipAmountMustBePositive
  | TipAmountExceedsLimit
  | SenderNotFound
  | ReceiverNotFound
  | SenderCannotGiveTips
  | ReceiverCannotReceiveTips
  | InsufficientBalance
  | SelfTransferNotAllowed
  | UserNotFound
  | FundingAmountOutOfBounds
  | InsufficientBalanceForWithdrawal
  | PayoutNotEligible
  | PayoutAmountMustBePositive
  | InsufficientBalanceForPayout
  | NoConnectedAccount
  | PayoutAccountNotReady
deriving DecidableEq, Repr

/-- Grouping of the two amount-bound failures of `sendTip` under the single
`InvalidAmount` code of the spec taxonomy. -/
def TxError.isInvalidAmount : TxError → Bool
  | .TipAmountMustBePositive => true
  | .TipAmountExceedsLimit => true
  | _ => false

/-- Prisma `user.findUnique({ where: { id } })`. -/
def findUser (users : List User) (id : UserId) : Option User :=
  users.find? (fun u => u.id == id)

/-- Prisma `user.update({ where: { id }, data: { balance } })` with the new
balance computed by `f` from the old one (covers plain set, `increment` and
`decrement`). -/
def mapBalance (users : List User) (id : UserId) (f : ℚ → ℚ) : List User :=
  users.map (fun u => if u.id == id then { u with balance := f u.balance } else u)

/-- Prisma `user.update` setting `stripeCustomerId`. -/
def setCustomerId (users : List User) (id : UserId) (cust : String) : List User :=
  users.map (fun u => if u.id == id then { u with stripeCustomerId := some cust } else u)

/-- Stored balance of a user, as read by `getBalance` in
`services/transactions.ts`. -/
def getBalance (s : LedgerState) (id : UserId) : Option ℚ :=
  (findUser s.users id).map (fun u => u.balance)

/-- JavaScript `description || defaultText`: the empty string is falsy. -/
def descOrDefault (description : Option String) (dflt : String) : String :=
  match description with
  | some d => if d = "" then dflt else d
  | none => dflt

/-- Result record of `sendTip` (`SendTipResult` in the source, with the
returned transaction row represented by its id). -/
structure SendTipResult where
  txId : Nat
  senderNewBalance : ℚ
  receiverNewBalance : ℚ
deriving DecidableEq, Repr

/-- The `sendTip` service operation (`services/transactions.ts`): amount
bound checks on the raw input, rounding, user loads, permission and
sufficiency checks, balance writes, then the paired SEND_TIP/RECEIVE_TIP
rows, all inside one atomic scope. -/
def sendTip (s : LedgerState) (senderId receiverId : UserId) (amount : ℚ)
    (description : Option String) : Except TxError (LedgerState × SendTipResult) :=
  if amount ≤ 0 then .error .TipAmountMustBePositive
  else if 500 < amount then .error .TipAmountExceedsLimit
  else
    let roundedAmount := jsRound amount
    match findUser s.users senderId with
    | none => .error .SenderNotFound
    | some sender =>
      match findUser s.users receiverId with
      | none => .error .ReceiverNotFound
      | some receiver =>
        if !sender.canGiveTips then .error .SenderCannotGiveTips
        else if !receiver.canReceiveTips then .error .ReceiverCannotReceiveTips
        else if sender.balance < roundedAmount then .error .InsufficientBalance
        else
          let senderNewBalance := sender.balance - roundedAmount
          let receiverNewBalance := receiver.balance + roundedAmount
          let users1 := mapBalance s.users senderId (fun _ => senderNewBalance)
          let users2 := mapBalance users1 receiverId (fun _ => receiverNewBalance)
          let sendTx : Transaction :=
            { id := s.nextTxId
              type := .SEND_TIP
              amount := roundedAmount
              senderId := some senderId
              receiverId := some receiverId
              status := .COMPLETED
              description := some (descOrDefault description ("Tip sent to " ++ receiver.userAlias))
              stripePaymentIntentId := none
              stripePayoutId := none }
          let receiveTx : Transaction :=
            { id := s.nextTxId + 1
              type := .RECEIVE_TIP
              amount := roundedAmount
              senderId := some senderId
              receiverId := some receiverId
              status := .COMPLETED
              description := some (descOrDefault description ("Tip received from " ++ sender.userAlias))
              stripePaymentIntentId := none
              stripePayoutId := none }
          .ok ({ s with
                  users := users2
                  transactions := s.transactions ++ [sendTx, receiveTx]
                  nextTxId := s.nextTxId + 2 },
               { txId := s.nextTxId
                 senderNewBalance := senderNewBalance
                 receiverNewBalance := receiverNewBalance })

/-- The `POST /transactions/tip` handler body (`routes/transactions.ts`):
the self-tip guard runs before the service call. -/
def sendTipEndpoint (s : LedgerState) (senderId recipientId : UserId) (amount : ℚ)
    (message : Option String) : Except TxError (LedgerState × SendTipResult) :=
  if senderId = recipientId then .error .SelfTransferNotAllowed
  else sendTip s senderId recipientId amount message

/-- The `recordFunding` service operation (`services/transactions.ts`):
rounds the amount, increments the balance and writes a COMPLETED ADD_FUNDS
row carrying the payment-intent reference; no bound check on the amount.
The Prisma `update` on a missing user id aborts the transaction, modelled
as `UserNotFound`. -/
def recordFunding (s : LedgerState) (userId : UserId) (amount : ℚ)
    (stripePaymentIntentId : String) (description : Option String) :
    Except TxError (LedgerState × Transaction) :=
  let roundedAmount := jsRound amount
  match findUser s.users userId with
  | none => .error .UserNotFound
  | some _ =>
    let users1 := mapBalance s.users userId (fun b => b + roundedAmount)
    let tx : Transaction :=
      { id := s.nextTxId
        type := .ADD_FUNDS
        amount := roundedAmount
        senderId := none
        receiverId := some userId
        status := .COMPLETED
        description := some (descOrDefault description "Account funding via Stripe")
        stripePaymentIntentId := some stripePaymentIntentId
        stripePayoutId := none }
    .ok ({ s with
            users := users1
            transactions := s.transactions ++ [tx]
            nextTxId := s.nextTxId + 1 }, tx)

/-- The `recordWithdrawal` service operation (`services/transactions.ts`):
rounds the amount, checks sufficiency against the stored balance, decrements
it and writes a COMPLETED WITHDRAW row carrying the payout reference. -/
def recordWithdrawal (s : LedgerState) (userId : UserId) (amount : ℚ)
    (stripePayoutId : String) (description : Option String) :
    Except TxError (LedgerState × Transaction) :=
  let roundedAmount := jsRound amount
  match findUser s.users userId with
  | none => .error .UserNotFound
  | some user =>
    if user.balance < roundedAmount then .error .InsufficientBalanceForWithdrawal
    else
      let users1 := mapBalance s.users userId (fun b => b - roundedAmount)
      let tx : Transaction :=
        { id := s.nextTxId
          type := .WITHDRAW
          amount := roundedAmount
          senderId := some userId
          receiverId := none
          status := .COMPLETED
          description := some (descOrDefault description "Withdrawal via Stripe")
          stripePaymentIntentId := none
          stripePayoutId := some stripePayoutId }
      .ok ({ s with
              users := users1
              transactions := s.transactions ++ [tx]
              nextTxId := s.nextTxId + 1 }, tx)

/-- The `createPaymentIntent` service operation (`services/payments.ts`):
loads the user, validates the 1.00-to-10000.00 funding bound, ensures a
Stripe customer id (the externally generated id is a parameter), and writes
a PENDING ADD_FUNDS row with the unrounded request amount and the
payment-intent id returned by Stripe (also a parameter); the balance is not
touched. -/
def createPaymentIntent (s : LedgerState) (userId : UserId) (amount : ℚ)
    (newCustomerId paymentIntentId : String) : Except TxError LedgerState :=
  match findUser s.users userId with
  | none => .error .UserNotFound
  | some user =>
    if amount < 1 ∨ 10000 < amount then .error .FundingAmountOutOfBounds
    else
      let users1 :=
        match user.stripeCustomerId with
        | some _ => s.users
        | none => setCustomerId s.users userId newCustomerId
      let tx : Transaction :=
        { id := s.nextTxId
          type := .ADD_FUNDS
          amount := amount
          senderId := none
          receiverId := some userId
          status := .PENDING
          description := some "Add funds via Stripe"
          stripePaymentIntentId := some paymentIntentId
          stripePayoutId := none }
      .ok { s with
              users := users1
              transactions := s.transactions ++ [tx]
              nextTxId := s.nextTxId + 1 }

/-- The `createPayout` service operation (`services/payments.ts`): loads the
user, checks payout eligibility, positivity, sufficiency and the connected
account (whose readiness is external state, a parameter), writes a PENDING
WITHDRAW row with the payout id, and immediately decrements the balance by
the unrounded request amount. -/
def createPayout (s : LedgerState) (userId : UserId) (amount : ℚ)
    (payoutId : String) (payoutsEnabled : Bool) : Except TxError LedgerState :=
  match findUser s.users userId with
  | none => .error .UserNotFound
  | some user =>
    if !user.canReceiveTips then .error .PayoutNotEligible
    else if amount ≤ 0 then .error .PayoutAmountMustBePositive
    else if user.balance < amount then .error .InsufficientBalanceForPayout
    else
      match user.stripeAccountId with
      | none => .error .NoConnectedAccount
      | some _ =>
        if !payoutsEnabled then .error .PayoutAccountNotReady
        else
          let tx : Transaction :=
            { id := s.nextTxId
              type := .WITHDRAW
              amount := amount
              senderId := some userId
              receiverId := none
              status := .PENDING
              description := some "Withdraw funds to bank account"
              stripePaymentIntentId := none
              stripePayoutId := some payoutId }
          let users1 := mapBalance s.users userId (fun b => b - amount)
          .ok { s with
                  users := users1
                  transactions := s.transactions ++ [tx]
                  nextTxId := s.nextTxId + 1 }

/-- Prisma `transaction.findFirst({ where: { stripePaymentIntentId, status:
PENDING } })`. -/
def findPendingByIntent (txs : List Transaction) (ref : String) : Option Transaction :=
  txs.find? (fun t => t.stripePaymentIntentId == some ref && t.status == .PENDING)

/-- Prisma `transaction.update({ where: { id }, data: { status } })`. -/
def setTxStatus (txs : List Transaction) (id : Nat) (st : TransactionStatus) :
    List Transaction :=
  txs.map (fun t => if t.id == id then { t with status := st } else t)

/-- The `processSuccessfulPayment` service operation (`services/payments.ts`):
locates the PENDING transaction by payment-intent reference (absent is a
benign no-op), marks it COMPLETED, and increments the receiver balance by
the transaction amount. -/
def processSuccessfulPayment (s : LedgerState) (paymentIntentId : String) : LedgerState :=
  match findPendingByIntent s.transactions paymentIntentId with
  | none => s
  | some tx =>
    let txs1 := setTxStatus s.transactions tx.id .COMPLETED
    let users1 :=
      match tx.receiverId with
      | some rid => mapBalance s.users rid (fun b => b + tx.amount)
      | none => s.users
    { s with transactions := txs1, users := users1 }

/-- The `processFailedPayment` service operation (`services/payments.ts`):
locates the PENDING transaction by payment-intent reference (absent is a
benign no-op) and marks it FAILED; no balance mutation. -/
def processFailedPayment (s : LedgerState) (paymentIntentId : String) : LedgerState :=
  match findPendingByIntent s.transactions paymentIntentId with
  | none => s
  | some tx =>
    { s with transactions := setTxStatus s.transactions tx.id .FAILED }

/-- Prisma `stripeEvent.findUnique({ where: { stripeEventId } })`. -/
def findEvent (evs : List StripeEvent) (eventId : String) : Option StripeEvent :=
  evs.find? (fun e => e.stripeEventId == eventId)

/-- Prisma `stripeEvent.update({ where: { stripeEventId }, data: { processed:
true } })`. -/
def markEventProcessed (evs : List StripeEvent) (eventId : String) : List StripeEvent :=
  evs.map (fun e => if e.stripeEventId == eventId then { e with processed := true } else e)

/-- The `POST /payments/webhook` handler (`routes/payments.ts`) after
signature verification: if the event id is already stored and processed,
acknowledge without side effects; if it is stored but unprocessed, the
duplicate `create` violates the unique constraint and the handler aborts
with a 400 before any side effect; otherwise store the event, dispatch on
the event type, and mark the event processed.  The returned flag is the
acknowledgement (`true` for the 200 `received` response). -/
def handleWebhookEvent (s : LedgerState) (eventId eventType objectId : String) :
    LedgerState × Bool :=
  match findEvent s.stripeEvents eventId with
  | some ev =>
    if ev.processed then (s, true)
    else (s, false)
  | none =>
    let s1 := { s with
                  stripeEvents := s.stripeEvents ++
                    [{ stripeEventId := eventId, eventType := eventType, processed := false }] }
    let s2 :=
      if eventType = "payment_intent.succeeded" then
        processSuccessfulPayment s1 objectId
      else if eventType = "payment_intent.payment_failed" then
        processFailedPayment s1 objectId
      else s1
    ({ s2 with stripeEvents := markEventProcessed s2.stripeEvents eventId }, true)

/-- The exposed mutating operations of the engine, with the externally
supplied identifiers and external-account state as constructor arguments. -/
inductive Op where
  | sendTip (senderId receiverId : UserId) (amount : ℚ) (description : Option String)
  | recordFunding (userId : UserId) (amount : ℚ) (ref : String) (description : Option String)
  | recordWithdrawal (userId : UserId) (amount : ℚ) (ref : String) (description : Option String)
  | createPaymentIntent (userId : UserId) (amount : ℚ) (newCustomerId ref : String)
  | createPayout (userId : UserId) (amount : ℚ) (ref : String) (payoutsEnabled : Bool)
  | processSuccessfulPayment (ref : String)
  | processFailedPayment (ref : String)
deriving DecidableEq, Repr

/-- Committed state after one operation: a failing operation rolls back
(the `prisma.$transaction` scope), leaving the state unchanged. -/
def applyOp (s : LedgerState) : Op → LedgerState
  | .sendTip senderId receiverId amount description =>
    match sendTip s senderId receiverId amount description with
    | .ok (s1, _) => s1
    | .error _ => s
  | .recordFunding userId amount ref description =>
    match recordFunding s userId amount ref description with
    | .ok (s1, _) => s1
    | .error _ => s
  | .recordWithdrawal userId amount ref description =>
    match recordWithdrawal s userId amount ref description with
    | .ok (s1, _) => s1
    | .error _ => s
  | .createPaymentIntent userId amount newCustomerId ref =>
    match createPaymentIntent s userId amount newCustomerId ref with
    | .ok s1 => s1
    | .error _ => s
  | .createPayout userId amount ref payoutsEnabled =>
    match createPayout s userId amount ref payoutsEnabled with
    | .ok s1 => s1
    | .error _ => s
  | .processSuccessfulPayment ref => processSuccessfulPayment s ref
  | .processFailedPayment ref => processFailedPayment s ref

/-- Committed state after a sequence of operations. -/
def applyOps (s : LedgerState) (ops : List Op) : LedgerState :=
  ops.foldl applyOp s

/-!
Concrete fixtures used by the witness and counterexample theorems.
-/

/-- Sample sender: balance 100.00, both tip flags set, connected account. -/
def userA : User :=
  { id := "a", balance := 100, canGiveTips := true, canReceiveTips := true,
    userAlias := "al", fullName := "Alice", stripeCustomerId := none,
    stripeAccountId := some "acct_a" }

/-- Sample receiver: balance 50.00, both tip flags set. -/
def userB : User :=
  { id := "b", balance := 50, canGiveTips := true, canReceiveTips := true,
    userAlias := "bo", fullName := "Bob", stripeCustomerId := none,
    stripeAccountId := none }

/-- Sample ledger: two users, empty transaction log, no stored events. -/
def baseState : LedgerState :=
  { users := [userA, userB], transactions := [], nextTxId := 0, stripeEvents := [] }

/-- Committed state of `sendTip baseState "a" "b" 25 none`. -/
def tipState : LedgerState :=
  { users := [{ userA with balance := 75 }, { userB with balance := 75 }]
    transactions :=
      [{ id := 0, type := .SEND_TIP, amount := 25, senderId := some "a", receiverId := some "b",
         status := .COMPLETED, description := some "Tip sent to bo",
         stripePaymentIntentId := none, stripePayoutId := none },
       { id := 1, type := .RECEIVE_TIP, amount := 25, senderId := some "a", receiverId := some "b",
         status := .COMPLETED, description := some "Tip received from al",
         stripePaymentIntentId := none, stripePayoutId := none }]
    nextTxId := 2
    stripeEvents := [] }

/-- Result record of `sendTip baseState "a" "b" 25 none`. -/
def tipRes : SendTipResult := { txId := 0, senderNewBalance := 75, receiverNewBalance := 75 }

/-- Committed state of `sendTip baseState "a" "b" 0.004 none`: the raw
amount passes the bound checks, rounds to 0.00, and the tip commits with a
zero amount, leaving both balances unchanged. -/
def tinyTipState : LedgerState :=
  { users := [userA, userB]
    transactions :=
      [{ id := 0, type := .SEND_TIP, amount := 0, senderId := some "a", receiverId := some "b",
         status := .COMPLETED, description := some "Tip sent to bo",
         stripePaymentIntentId := none, stripePayoutId := none },
       { id := 1, type := .RECEIVE_TIP, amount := 0, senderId := some "a", receiverId := some "b",
         status := .COMPLETED, description := some "Tip received from al",
         stripePaymentIntentId := none, stripePayoutId := none }]
    nextTxId := 2
    stripeEvents := [] }

/-- Result record of `sendTip baseState "a" "b" 0.004 none`. -/
def tinyTipRes : SendTipResult := { txId := 0, senderNewBalance := 100, receiverNewBalance := 50 }

/-- Sample sender with balance 10.00, for the insufficient-funds scenario. -/
def userP : User :=
  { id := "p", balance := 10, canGiveTips := true, canReceiveTips := true,
    userAlias := "pe", fullName := "Pete", stripeCustomerId := none,
    stripeAccountId := none }

/-- Ledger whose sender has balance 10.00. -/
def poorState : LedgerState :=
  { users := [userP, userB], transactions := [], nextTxId := 0, stripeEvents := [] }

/-- The Pending row written by `createPayout baseState "a" 50 "po_1" true`. -/
def payoutRow : Transaction :=
  { id := 0, type := .WITHDRAW, amount := 50, senderId := some "a", receiverId := none,
    status := .PENDING, description := some "Withdraw funds to bank account",
    stripePaymentIntentId := none, stripePayoutId := some "po_1" }

/-- Committed state of `createPayout baseState "a" 50 "po_1" true`: the
balance is already debited while the row is still Pending. -/
def payoutState : LedgerState :=
  { users := [{ userA with balance := 50 }, userB]
    transactions := [payoutRow]
    nextTxId := 1
    stripeEvents := [] }

/-- The Completed row written by `recordFunding baseState "a" (-0.004) "pi_t" none`. -/
def fundZeroTx : Transaction :=
  { id := 0, type := .ADD_FUNDS, amount := 0, senderId := none, receiverId := some "a",
    status := .COMPLETED, description := some "Account funding via Stripe",
    stripePaymentIntentId := some "pi_t", stripePayoutId := none }

/-- Committed state of `recordFunding baseState "a" (-0.004) "pi_t" none`:
the tiny negative amount rounds to 0.00 and the balance is unchanged. -/
def fundZeroState : LedgerState :=
  { users := [userA, userB], transactions := [fundZeroTx], nextTxId := 1, stripeEvents := [] }

/-- The Pending row written by `createPaymentIntent baseState "a" 100 "cus_1" "pi_9"`. -/
def intentRow : Transaction :=
  { id := 0, type := .ADD_FUNDS, amount := 100, senderId := none, receiverId := some "a",
    status := .PENDING, description := some "Add funds via Stripe",
    stripePaymentIntentId := some "pi_9", stripePayoutId := none }

/-- Committed state of `createPaymentIntent baseState "a" 100 "cus_1" "pi_9"`. -/
def intentState : LedgerState :=
  { users := [{ userA with stripeCustomerId := some "cus_1" }, userB]
    transactions := [intentRow]
    nextTxId := 1
    stripeEvents := [] }

/-- A Pending ADD_FUNDS row for reference pi_1, awaiting settlement. -/
def pendingFundRow : Transaction :=
  { id := 0, type := .ADD_FUNDS, amount := 100, senderId := none, receiverId := some "b",
    status := .PENDING, description := some "Add funds via Stripe",
    stripePaymentIntentId := some "pi_1", stripePayoutId := none }

/-- Ledger holding one Pending funding row and no stored events. -/
def pendingFundState : LedgerState :=
  { users := [userA, userB], transactions := [pendingFundRow], nextTxId := 1, stripeEvents := [] }

/-- The SEND_TIP row of `tipState`, a terminal (Completed) transaction. -/
def sentRow : Transaction :=
  { id := 0, type := .SEND_TIP, amount := 25, senderId := some "a", receiverId := some "b",
    status := .COMPLETED, description := some "Tip sent to bo",
    stripePaymentIntentId := none, stripePayoutId := none }


/-- All stored balances are non-negative. -/
def BalancesNonneg (s : LedgerState) : Prop := ∀ u ∈ s.users, 0 ≤ u.balance

/-- Every Pending row has a non-negative amount (a successful settlement
credits exactly this amount). -/
def PendingNonneg (s : LedgerState) : Prop :=
  ∀ t ∈ s.transactions, t.status = .PENDING → 0 ≤ t.amount

/-- Well-formedness of a ledger state: unique user ids (the database key
constraint), non-negative balances, non-negative pending amounts. -/
def LedgerInv (s : LedgerState) : Prop :=
  (s.users.map (fun u => u.id)).Nodup ∧ BalancesNonneg s ∧ PendingNonneg s

/-- Side condition on an operation: `recordFunding` is the one operation
with no amount validation of its own, so it is restricted to non-negative
amounts; every other operation validates internally. -/
def OpOk : Op → Prop
  | .recordFunding _ amount _ _ => 0 ≤ amount
  | _ => True

/-- A sample sequence touching every kind of committed mutation. -/
def demoOps : List Op :=
  [.sendTip "a" "b" 25 none, .recordFunding "a" 20 "pi_d" none,
   .createPaymentIntent "a" 100 "cus_1" "pi_e", .processSuccessfulPayment "pi_e"]

/-!
General lemmas about the store helpers, shared by the claim theorems.
-/

/-- Rounding a non-negative amount yields a non-negative amount. -/
theorem jsRound_nonneg {q : ℚ} (h : 0 ≤ q) : 0 ≤ jsRound q := by
  unfold jsRound
  have h1 : (0 : ℤ) ≤ ⌊q * 100 + 1 / 2⌋ := by
    apply Int.le_floor.mpr
    push_cast
    nlinarith
  have h2 : (0 : ℚ) ≤ ((⌊q * 100 + 1 / 2⌋ : ℤ) : ℚ) := by exact_mod_cast h1
  linarith

/-- Rounding an amount strictly below -0.005 yields a negative amount. -/
theorem jsRound_neg {q : ℚ} (h : q < -(1 / 200)) : jsRound q < 0 := by
  unfold jsRound
  have h1 : ⌊q * 100 + 1 / 2⌋ < (0 : ℤ) := by
    apply Int.floor_lt.mpr
    push_cast
    nlinarith
  have h2 : ((⌊q * 100 + 1 / 2⌋ : ℤ) : ℚ) < 0 := by exact_mod_cast h1
  linarith

/-- A found user is a member and carries the looked-up id. -/
theorem findUser_eq_some {users : List User} {id : UserId} {u : User}
    (h : findUser users id = some u) : u ∈ users ∧ u.id = id := by
  refine ⟨List.mem_of_find?_eq_some h, ?_⟩
  have h1 := List.find?_some h
  simpa using h1

/-- Balance updates keyed on one id commute with user lookup. -/
theorem findUser_mapBalance (users : List User) (id v : UserId) (f : ℚ → ℚ) :
    findUser (mapBalance users id f) v =
      Option.map (fun u => if u.id == id then { u with balance := f u.balance } else u)
        (findUser users v) := by
  unfold findUser mapBalance
  rw [List.find?_map]
  congr 2
  funext u
  by_cases h : u.id == id <;> simp [Function.comp, h]

/-- Customer-id updates commute with user lookup. -/
theorem findUser_setCustomerId (users : List User) (id : UserId) (c : String) (v : UserId) :
    findUser (setCustomerId users id c) v =
      Option.map (fun u => if u.id == id then { u with stripeCustomerId := some c } else u)
        (findUser users v) := by
  unfold findUser setCustomerId
  rw [List.find?_map]
  congr 2
  funext u
  by_cases h : u.id == id <;> simp [Function.comp, h]

/-- A member of a balance-updated user list comes from a member of the
original list, with at most the balance changed. -/
theorem mem_mapBalance {users : List User} {id : UserId} {f : ℚ → ℚ} {u' : User}
    (h : u' ∈ mapBalance users id f) :
    ∃ u ∈ users, u' = if u.id == id then { u with balance := f u.balance } else u := by
  rcases List.mem_map.mp h with ⟨u, hu, he⟩
  exact ⟨u, hu, he.symm⟩

/-- A member of a customer-id-updated user list comes from a member of the
original list, with the same balance. -/
theorem mem_setCustomerId {users : List User} {id : UserId} {c : String} {u' : User}
    (h : u' ∈ setCustomerId users id c) :
    ∃ u ∈ users, u'.balance = u.balance := by
  rcases List.mem_map.mp h with ⟨u, hu, he⟩
  refine ⟨u, hu, ?_⟩
  by_cases hc : u.id == id <;> simp [hc] at he <;> simp [← he]

/-- Balance updates do not change the list of user ids. -/
theorem mapBalance_ids (users : List User) (id : UserId) (f : ℚ → ℚ) :
    (mapBalance users id f).map (fun u => u.id) = users.map (fun u => u.id) := by
  unfold mapBalance
  rw [List.map_map]
  congr 1
  funext u
  by_cases h : u.id == id <;> simp [Function.comp, h]

/-- Customer-id updates do not change the list of user ids. -/
theorem setCustomerId_ids (users : List User) (id : UserId) (c : String) :
    (setCustomerId users id c).map (fun u => u.id) = users.map (fun u => u.id) := by
  unfold setCustomerId
  rw [List.map_map]
  congr 1
  funext u
  by_cases h : u.id == id <;> simp [Function.comp, h]

/-- With unique user ids, any member carrying the looked-up id is the found
user. -/
theorem findUser_unique {users : List User} {id : UserId} {u0 u : User}
    (hnd : (users.map (fun u => u.id)).Nodup)
    (h0 : findUser users id = some u0) (hu : u ∈ users) (hid : u.id = id) : u = u0 := by
  rcases findUser_eq_some h0 with ⟨hm0, hid0⟩
  exact List.inj_on_of_nodup_map hnd hu hm0 (by rw [hid, hid0])

/-- A found pending transaction is a pending member carrying the reference. -/
theorem findPendingByIntent_eq_some {txs : List Transaction} {ref : String} {t : Transaction}
    (h : findPendingByIntent txs ref = some t) :
    t ∈ txs ∧ t.stripePaymentIntentId = some ref ∧ t.status = .PENDING := by
  refine ⟨List.mem_of_find?_eq_some h, ?_, ?_⟩
  · have h1 := List.find?_some h
    simp only [Bool.and_eq_true, beq_iff_eq] at h1
    exact h1.1
  · have h1 := List.find?_some h
    simp only [Bool.and_eq_true, beq_iff_eq] at h1
    exact h1.2

/-- A found stored event is a member carrying the looked-up event id. -/
theorem findEvent_eq_some {evs : List StripeEvent} {e : String} {ev : StripeEvent}
    (h : findEvent evs e = some ev) : ev ∈ evs ∧ ev.stripeEventId = e := by
  refine ⟨List.mem_of_find?_eq_some h, ?_⟩
  have h1 := List.find?_some h
  simpa using h1

/-- Marking an event processed commutes with event lookup. -/
theorem findEvent_markEventProcessed (evs : List StripeEvent) (e v : String) :
    findEvent (markEventProcessed evs e) v =
      Option.map (fun ev => if ev.stripeEventId == e then { ev with processed := true } else ev)
        (findEvent evs v) := by
  unfold findEvent markEventProcessed
  rw [List.find?_map]
  congr 2
  funext ev
  by_cases h : ev.stripeEventId == e <;> simp [Function.comp, h]

/-- Event lookup over an appended list when the left part misses. -/
theorem findEvent_append_of_none {evs : List StripeEvent} {e : String}
    (h : findEvent evs e = none) (more : List StripeEvent) :
    findEvent (evs ++ more) e = findEvent more e := by
  unfold findEvent at h ⊢
  rw [List.find?_append, h]
  rfl

/-!
Characterizations of the success branch of each `Except`-valued operation.
-/

/-- Successful `sendTip` runs determine the output state and result. -/
theorem sendTip_ok_elim {s : LedgerState} {senderId receiverId : UserId} {amount : ℚ}
    {d : Option String} {s' : LedgerState} {res : SendTipResult}
    (h : sendTip s senderId receiverId amount d = .ok (s', res)) :
    ∃ sender receiver,
      findUser s.users senderId = some sender ∧
      findUser s.users receiverId = some receiver ∧
      0 < amount ∧ amount ≤ 500 ∧
      sender.canGiveTips = true ∧ receiver.canReceiveTips = true ∧
      jsRound amount ≤ sender.balance ∧
      res = { txId := s.nextTxId
              senderNewBalance := sender.balance - jsRound amount
              receiverNewBalance := receiver.balance + jsRound amount } ∧
      s' = { s with
              users := mapBalance
                (mapBalance s.users senderId (fun _ => sender.balance - jsRound amount))
                receiverId (fun _ => receiver.balance + jsRound amount)
              transactions := s.transactions ++
                [{ id := s.nextTxId, type := .SEND_TIP, amount := jsRound amount,
                   senderId := some senderId, receiverId := some receiverId,
                   status := .COMPLETED,
                   description := some (descOrDefault d ("Tip sent to " ++ receiver.userAlias)),
                   stripePaymentIntentId := none, stripePayoutId := none },
                 { id := s.nextTxId + 1, type := .RECEIVE_TIP, amount := jsRound amount,
                   senderId := some senderId, receiverId := some receiverId,
                   status := .COMPLETED,
                   description := some (descOrDefault d ("Tip received from " ++ sender.userAlias)),
                   stripePaymentIntentId := none, stripePayoutId := none }]
              nextTxId := s.nextTxId + 2 } := by
  unfold sendTip at h
  dsimp only at h
  split at h
  · exact absurd h (by simp)
  rename_i h0
  split at h
  · exact absurd h (by simp)
  rename_i h500
  split at h
  · exact absurd h (by simp)
  rename_i sender hsender
  split at h
  · exact absurd h (by simp)
  rename_i receiver hreceiver
  split at h
  · exact absurd h (by simp)
  rename_i hgive
  split at h
  · exact absurd h (by simp)
  rename_i hrecv
  split at h
  · exact absurd h (by simp)
  rename_i hbal
  cases h
  refine ⟨sender, receiver, hsender, hreceiver, by linarith [not_le.mp h0], not_lt.mp h500,
    by simpa using hgive, by simpa using hrecv, not_lt.mp hbal, rfl, rfl⟩

/-- Successful `recordFunding` runs determine the output state and row. -/
theorem recordFunding_ok_elim {s : LedgerState} {userId : UserId} {amount : ℚ}
    {ref : String} {d : Option String} {s' : LedgerState} {tx : Transaction}
    (h : recordFunding s userId amount ref d = .ok (s', tx)) :
    ∃ user,
      findUser s.users userId = some user ∧
      tx = { id := s.nextTxId, type := .ADD_FUNDS, amount := jsRound amount,
             senderId := none, receiverId := some userId, status := .COMPLETED,
             description := some (descOrDefault d "Account funding via Stripe"),
             stripePaymentIntentId := some ref, stripePayoutId := none } ∧
      s' = { s with
              users := mapBalance s.users userId (fun b => b + jsRound amount)
              transactions := s.transactions ++ [tx]
              nextTxId := s.nextTxId + 1 } := by
  unfold recordFunding at h
  dsimp only at h
  split at h
  · exact absurd h (by simp)
  rename_i user huser
  cases h
  exact ⟨user, huser, rfl, rfl⟩

/-- Successful `recordWithdrawal` runs determine the output state and row. -/
theorem recordWithdrawal_ok_elim {s : LedgerState} {userId : UserId} {amount : ℚ}
    {ref : String} {d : Option String} {s' : LedgerState} {tx : Transaction}
    (h : recordWithdrawal s userId amount ref d = .ok (s', tx)) :
    ∃ user,
      findUser s.users userId = some user ∧
      jsRound amount ≤ user.balance ∧
      tx = { id := s.nextTxId, type := .WITHDRAW, amount := jsRound amount,
             senderId := some userId, receiverId := none, status := .COMPLETED,
             description := some (descOrDefault d "Withdrawal via Stripe"),
             stripePaymentIntentId := none, stripePayoutId := some ref } ∧
      s' = { s with
              users := mapBalance s.users userId (fun b => b - jsRound amount)
              transactions := s.transactions ++ [tx]
              nextTxId := s.nextTxId + 1 } := by
  unfold recordWithdrawal at h
  dsimp only at h
  split at h
  · exact absurd h (by simp)
  rename_i user huser
  split at h
  · exact absurd h (by simp)
  rename_i hbal
  cases h
  exact ⟨user, huser, not_lt.mp hbal, rfl, rfl⟩

/-- Successful `createPaymentIntent` runs determine the output state. -/
theorem createPaymentIntent_ok_elim {s : LedgerState} {userId : UserId} {amount : ℚ}
    {cust iid : String} {s' : LedgerState}
    (h : createPaymentIntent s userId amount cust iid = .ok s') :
    ∃ user,
      findUser s.users userId = some user ∧
      1 ≤ amount ∧ amount ≤ 10000 ∧
      s' = { s with
              users := match user.stripeCustomerId with
                | some _ => s.users
                | none => setCustomerId s.users userId cust
              transactions := s.transactions ++
                [{ id := s.nextTxId, type := .ADD_FUNDS, amount := amount,
                   senderId := none, receiverId := some userId, status := .PENDING,
                   description := some "Add funds via Stripe",
                   stripePaymentIntentId := some iid, stripePayoutId := none }]
              nextTxId := s.nextTxId + 1 } := by
  unfold createPaymentIntent at h
  dsimp only at h
  split at h
  · exact absurd h (by simp)
  rename_i user huser
  split at h
  · exact absurd h (by simp)
  rename_i hbound
  push_neg at hbound
  cases h
  exact ⟨user, huser, hbound.1, hbound.2, rfl⟩

/-- Successful `createPayout` runs determine the output state. -/
theorem createPayout_ok_elim {s : LedgerState} {userId : UserId} {amount : ℚ}
    {poid : String} {enabled : Bool} {s' : LedgerState}
    (h : createPayout s userId amount poid enabled = .ok s') :
    ∃ user,
      findUser s.users userId = some user ∧
      user.canReceiveTips = true ∧ 0 < amount ∧ amount ≤ user.balance ∧
      s' = { s with
              users := mapBalance s.users userId (fun b => b - amount)
              transactions := s.transactions ++
                [{ id := s.nextTxId, type := .WITHDRAW, amount := amount,
                   senderId := some userId, receiverId := none, status := .PENDING,
                   description := some "Withdraw funds to bank account",
                   stripePaymentIntentId := none, stripePayoutId := some poid }]
              nextTxId := s.nextTxId + 1 } := by
  unfold createPayout at h
  dsimp only at h
  split at h
  · exact absurd h (by simp)
  rename_i user huser
  split at h
  · exact absurd h (by simp)
  rename_i hrecv
  split at h
  · exact absurd h (by simp)
  rename_i hpos
  split at h
  · exact absurd h (by simp)
  rename_i hbal
  split at h
  · exact absurd h (by simp)
  split at h
  · exact absurd h (by simp)
  rename_i henabled
  cases h
  exact ⟨user, huser, by simpa using hrecv, lt_of_not_le hpos, not_lt.mp hbal, rfl⟩


/-- A terminal row whose id differs from the updated id survives a status
update untouched. -/
theorem mem_setTxStatus_of_ne {txs : List Transaction} {id : Nat} {st : TransactionStatus}
    {t : Transaction} (ht : t ∈ txs) (hne : t.id ≠ id) : t ∈ setTxStatus txs id st := by
  have h := List.mem_map_of_mem
    (fun x => if x.id == id then { x with status := st } else x) ht
  simpa [setTxStatus, hne] using h

/-- After the unique row carrying a reference leaves PENDING, no pending
row with that reference remains. -/
theorem findPendingByIntent_setTxStatus_none
    {txs : List Transaction} {ref : String} {tx0 : Transaction}
    (huniq : ∀ t ∈ txs, t.stripePaymentIntentId = some ref → t = tx0)
    (st : TransactionStatus) (hst : st ≠ .PENDING) :
    findPendingByIntent (setTxStatus txs tx0.id st) ref = none := by
  unfold findPendingByIntent setTxStatus
  rw [List.find?_eq_none]
  intro x hx
  rcases List.mem_map.mp hx with ⟨t, ht, he⟩
  by_cases hid : t.id = tx0.id
  · rw [← he]
    simp [hid, hst]
  · rw [← he]
    simp only [beq_iff_eq, hid, if_false, Bool.and_eq_true, beq_iff_eq]
    rintro ⟨href, hpend⟩
    exact hid (by rw [huniq t ht href])

/-!
Claim theorems.
-/

/-- C1: for every successful `sendTip`, the returned `senderNewBalance` is
the sender prior balance minus the rounded amount, the returned
`receiverNewBalance` is the receiver prior balance plus the rounded amount,
and their sum equals the sum of the two prior balances. -/
theorem sendTip_conservation
    (s : LedgerState) (senderId receiverId : UserId) (amount : ℚ) (d : Option String)
    (s' : LedgerState) (res : SendTipResult) (bs br : ℚ)
    (hs : getBalance s senderId = some bs)
    (hr : getBalance s receiverId = some br)
    (h : sendTip s senderId receiverId amount d = .ok (s', res)) :
    res.senderNewBalance = bs - jsRound amount ∧
    res.receiverNewBalance = br + jsRound amount ∧
    res.senderNewBalance + res.receiverNewBalance = bs + br := by
  unfold sendTip at h
  dsimp only at h
  split at h
  · exact absurd h (by simp)
  split at h
  · exact absurd h (by simp)
  split at h
  · exact absurd h (by simp)
  rename_i sender hsender
  split at h
  · exact absurd h (by simp)
  rename_i receiver hreceiver
  split at h
  · exact absurd h (by simp)
  split at h
  · exact absurd h (by simp)
  split at h
  · exact absurd h (by simp)
  rw [getBalance, hsender] at hs
  rw [getBalance, hreceiver] at hr
  simp only [Option.map_some', Option.some.injEq] at hs hr
  cases h
  subst hs hr
  refine ⟨rfl, rfl, by ring⟩

/-- Witness for C1 at the spec scenario: balances 100.00 and 50.00, tip of
25.00. -/
theorem sendTip_conservation_witness :
    tipRes.senderNewBalance = 100 - jsRound 25 ∧
    tipRes.receiverNewBalance = 50 + jsRound 25 ∧
    tipRes.senderNewBalance + tipRes.receiverNewBalance = 100 + 50 :=
  sendTip_conservation baseState "a" "b" 25 none tipState tipRes 100 50
    (by simp [getBalance, findUser, baseState, userA, userB])
    (by simp [getBalance, findUser, baseState, userA, userB])
    (by simp [sendTip, findUser, baseState, userA, userB, tipState, tipRes,
              mapBalance, descOrDefault, jsRound]
        norm_num)

/-- C5: whenever `sendTip` fails with a business-rule error — in particular
`InsufficientBalance` when the sender balance is below the rounded amount —
the committed state is unchanged: no balance moves and no transaction rows
are created. -/
theorem sendTip_failure_no_side_effect
    (s : LedgerState) (senderId receiverId : UserId) (amount : ℚ) (d : Option String) :
    (∀ e, sendTip s senderId receiverId amount d = .error e →
      applyOp s (.sendTip senderId receiverId amount d) = s) ∧
    (∀ sender receiver, findUser s.users senderId = some sender →
      findUser s.users receiverId = some receiver →
      0 < amount → amount ≤ 500 →
      sender.canGiveTips = true → receiver.canReceiveTips = true →
      sender.balance < jsRound amount →
      sendTip s senderId receiverId amount d = .error .InsufficientBalance) := by
  constructor
  · intro e he
    simp [applyOp, he]
  · intro sender receiver hs hr h0 h5 hg hc hlt
    unfold sendTip
    rw [if_neg (not_le.mpr h0), if_neg (not_lt.mpr h5)]
    dsimp only
    simp [hs, hr, hg, hc, hlt]

/-- Witness for C5 at the spec scenario: sender balance 10.00, tip of 25.00
fails with insufficient balance and leaves the ledger unchanged. -/
theorem sendTip_failure_no_side_effect_witness :
    sendTip poorState "p" "b" 25 none = .error .InsufficientBalance ∧
    applyOp poorState (.sendTip "p" "b" 25 none) = poorState := by
  have h := sendTip_failure_no_side_effect poorState "p" "b" 25 none
  have he : sendTip poorState "p" "b" 25 none = .error .InsufficientBalance :=
    h.2 userP userB (by simp [findUser, poorState, userP, userB])
      (by simp [findUser, poorState, userP, userB]) (by norm_num) (by norm_num)
      rfl rfl (by norm_num [userP, jsRound])
  exact ⟨he, h.1 _ he⟩

/-- C6 counterexample: contrary to the claim, the bound checks of `sendTip`
run on the raw amount before rounding, so 500.004 is rejected with the
amount-limit error while 0.004 is accepted and commits with a rounded
amount of 0.00. -/
theorem sendTip_rounding_order_counterexample :
    sendTip baseState "a" "b" (500 + 4 / 1000) none = .error .TipAmountExceedsLimit ∧
    sendTip baseState "a" "b" (4 / 1000) none = .ok (tinyTipState, tinyTipRes) := by
  constructor
  · unfold sendTip
    rw [if_neg (by norm_num), if_pos (by norm_num)]
  · simp [sendTip, findUser, baseState, userA, userB, mapBalance, descOrDefault, jsRound,
          tinyTipState, tinyTipRes]
    norm_num

/-- C6 (amended): in `sendTip` the amount-bound validation (`InvalidAmount`
unless `0 < amount <= 500`) runs on the raw input amount, before rounding;
rounding to two decimals happens after validation, so an in-range raw
amount never fails validation and every created row carries the rounded
amount. -/
theorem sendTip_validates_raw_amount
    (s : LedgerState) (senderId receiverId : UserId) (amount : ℚ) (d : Option String) :
    (amount ≤ 0 → sendTip s senderId receiverId amount d = .error .TipAmountMustBePositive) ∧
    (500 < amount → sendTip s senderId receiverId amount d = .error .TipAmountExceedsLimit) ∧
    (0 < amount → amount ≤ 500 →
      (∀ e, sendTip s senderId receiverId amount d = .error e → e.isInvalidAmount = false) ∧
      (∀ s' res, sendTip s senderId receiverId amount d = .ok (s', res) →
        ∀ t ∈ s'.transactions, t ∉ s.transactions → t.amount = jsRound amount)) := by
  refine ⟨?_, ?_, ?_⟩
  · intro h0
    unfold sendTip
    rw [if_pos h0]
  · intro h5
    unfold sendTip
    rw [if_neg (by push_neg; linarith), if_pos h5]
  · intro h0 h5
    constructor
    · intro e he
      unfold sendTip at he
      rw [if_neg (not_le.mpr h0), if_neg (not_lt.mpr h5)] at he
      dsimp only at he
      split at he
      · cases he; rfl
      split at he
      · cases he; rfl
      split at he
      · cases he; rfl
      split at he
      · cases he; rfl
      split at he
      · cases he; rfl
      exact absurd he (by simp)
    · intro s' res h t ht htn
      obtain ⟨sender, receiver, _, _, _, _, _, _, _, _, hs'⟩ := sendTip_ok_elim h
      subst hs'
      simp only [List.mem_append, List.mem_cons, List.not_mem_nil, or_false] at ht
      rcases ht with ht | ht | ht
      · exact absurd ht htn
      · rw [ht]
      · rw [ht]

/-- Witness for C6 (amended) at the bound-violating amounts -3.00 and
600.00. -/
theorem sendTip_validates_raw_amount_witness :
    sendTip baseState "a" "b" (-3) none = .error .TipAmountMustBePositive ∧
    sendTip baseState "a" "b" 600 none = .error .TipAmountExceedsLimit :=
  ⟨(sendTip_validates_raw_amount baseState "a" "b" (-3) none).1 (by norm_num),
   (sendTip_validates_raw_amount baseState "a" "b" 600 none).2.1 (by norm_num)⟩

/-- C7: the exposed tip operation (route guard plus service) fails with
`SelfTransferNotAllowed` whenever sender and recipient coincide, regardless
of the other inputs, and the checks run in the order self-transfer, amount
bounds, permissions (sender before receiver), sufficiency, stopping at the
first failure: each later check is reached only when the earlier ones
pass, and each conjunct pins the outcome without constraining the inputs
of the later checks. -/
theorem sendTip_check_order
    (s : LedgerState) (senderId recipientId : UserId) (amount : ℚ) (d : Option String) :
    (senderId = recipientId →
      sendTipEndpoint s senderId recipientId amount d = .error .SelfTransferNotAllowed) ∧
    (senderId ≠ recipientId → amount ≤ 0 →
      sendTipEndpoint s senderId recipientId amount d = .error .TipAmountMustBePositive) ∧
    (senderId ≠ recipientId → 500 < amount →
      sendTipEndpoint s senderId recipientId amount d = .error .TipAmountExceedsLimit) ∧
    (∀ sender receiver, senderId ≠ recipientId → 0 < amount → amount ≤ 500 →
      findUser s.users senderId = some sender →
      findUser s.users recipientId = some receiver →
      sender.canGiveTips = false →
      sendTipEndpoint s senderId recipientId amount d = .error .SenderCannotGiveTips) ∧
    (∀ sender receiver, senderId ≠ recipientId → 0 < amount → amount ≤ 500 →
      findUser s.users senderId = some sender →
      findUser s.users recipientId = some receiver →
      sender.canGiveTips = true → receiver.canReceiveTips = false →
      sendTipEndpoint s senderId recipientId amount d = .error .ReceiverCannotReceiveTips) ∧
    (∀ sender receiver, senderId ≠ recipientId → 0 < amount → amount ≤ 500 →
      findUser s.users senderId = some sender →
      findUser s.users recipientId = some receiver →
      sender.canGiveTips = true → receiver.canReceiveTips = true →
      sender.balance < jsRound amount →
      sendTipEndpoint s senderId recipientId amount d = .error .InsufficientBalance) := by
  refine ⟨?_, ?_, ?_, ?_, ?_, ?_⟩
  · intro he
    unfold sendTipEndpoint
    rw [if_pos he]
  · intro hne h0
    unfold sendTipEndpoint sendTip
    rw [if_neg hne, if_pos h0]
  · intro hne h5
    unfold sendTipEndpoint sendTip
    rw [if_neg hne, if_neg (by push_neg; linarith), if_pos h5]
  · intro sender receiver hne h0 h5 hs hr hg
    unfold sendTipEndpoint sendTip
    rw [if_neg hne, if_neg (not_le.mpr h0), if_neg (not_lt.mpr h5)]
    dsimp only
    simp [hs, hr, hg]
  · intro sender receiver hne h0 h5 hs hr hg hc
    unfold sendTipEndpoint sendTip
    rw [if_neg hne, if_neg (not_le.mpr h0), if_neg (not_lt.mpr h5)]
    dsimp only
    simp [hs, hr, hg, hc]
  · intro sender receiver hne h0 h5 hs hr hg hc hlt
    unfold sendTipEndpoint sendTip
    rw [if_neg hne, if_neg (not_le.mpr h0), if_neg (not_lt.mpr h5)]
    dsimp only
    simp [hs, hr, hg, hc, hlt]

/-- Witness for C7: a self-tip with an otherwise invalid amount still fails
with the self-transfer error, showing that check runs first. -/
theorem sendTip_check_order_witness :
    sendTipEndpoint baseState "a" "a" (-7) none = .error .SelfTransferNotAllowed :=
  (sendTip_check_order baseState "a" "a" (-7) none).1 rfl

/-- C8: every successful `sendTip` appends exactly two rows in the same
atomic operation — a SEND_TIP row and a RECEIVE_TIP row, both COMPLETED,
both carrying the same sender, receiver and rounded amount. -/
theorem sendTip_paired_rows
    (s : LedgerState) (senderId receiverId : UserId) (amount : ℚ) (d : Option String)
    (s' : LedgerState) (res : SendTipResult)
    (h : sendTip s senderId receiverId amount d = .ok (s', res)) :
    ∃ t1 t2, s'.transactions = s.transactions ++ [t1, t2] ∧
      t1.type = .SEND_TIP ∧ t2.type = .RECEIVE_TIP ∧
      t1.status = .COMPLETED ∧ t2.status = .COMPLETED ∧
      t1.senderId = some senderId ∧ t2.senderId = some senderId ∧
      t1.receiverId = some receiverId ∧ t2.receiverId = some receiverId ∧
      t1.amount = jsRound amount ∧ t2.amount = jsRound amount := by
  obtain ⟨sender, receiver, _, _, _, _, _, _, _, _, hs'⟩ := sendTip_ok_elim h
  subst hs'
  exact ⟨_, _, rfl, rfl, rfl, rfl, rfl, rfl, rfl, rfl, rfl, rfl, rfl⟩

/-- Witness for C8 at the spec scenario tip of 25.00. -/
theorem sendTip_paired_rows_witness :
    ∃ t1 t2, tipState.transactions = baseState.transactions ++ [t1, t2] ∧
      t1.type = .SEND_TIP ∧ t2.type = .RECEIVE_TIP ∧
      t1.status = .COMPLETED ∧ t2.status = .COMPLETED ∧
      t1.senderId = some "a" ∧ t2.senderId = some "a" ∧
      t1.receiverId = some "b" ∧ t2.receiverId = some "b" ∧
      t1.amount = jsRound 25 ∧ t2.amount = jsRound 25 :=
  sendTip_paired_rows baseState "a" "b" 25 none tipState tipRes
    (by simp [sendTip, findUser, baseState, userA, userB, tipState, tipRes,
              mapBalance, descOrDefault, jsRound]
        norm_num)

/-- C9 counterexample: contrary to the claim, initiating a pending
withdrawal (`createPayout`) does touch a balance field at initiation time:
from a balance of 100.00, a payout of 50.00 writes a Pending WITHDRAW row
and immediately debits the balance to 50.00. -/
theorem pending_initiation_balance_counterexample :
    createPayout baseState "a" 50 "po_1" true = .ok payoutState ∧
    getBalance baseState "a" = some 100 ∧
    getBalance payoutState "a" = some 50 ∧
    (∃ t ∈ payoutState.transactions, t.status = .PENDING ∧ t.stripePayoutId = some "po_1") := by
  refine ⟨?_, ?_, ?_, ?_⟩
  · simp [createPayout, findUser, baseState, userA, userB, mapBalance, payoutState, payoutRow]
    norm_num
  · simp [getBalance, findUser, baseState, userA, userB]
  · simp [getBalance, findUser, payoutState, userA, userB]
  · exact ⟨payoutRow, by simp [payoutState], rfl, rfl⟩

/-- C9 (amended): initiating a pending funding (`createPaymentIntent`)
creates a Pending ADD_FUNDS row carrying the payment-intent reference and
leaves every balance unchanged; initiating a pending withdrawal
(`createPayout`) creates a Pending WITHDRAW row carrying the payout
reference and immediately decrements the requesting user's balance by the
payout amount, touching no other balance. -/
theorem pending_initiation_effects
    (s : LedgerState) (userId : UserId) (amount : ℚ)
    (cust iid poid : String) (enabled : Bool) :
    (∀ s', createPaymentIntent s userId amount cust iid = .ok s' →
      (∀ v, getBalance s' v = getBalance s v) ∧
      ∃ t, s'.transactions = s.transactions ++ [t] ∧ t.type = .ADD_FUNDS ∧
        t.status = .PENDING ∧ t.stripePaymentIntentId = some iid) ∧
    (∀ s' user, findUser s.users userId = some user →
      createPayout s userId amount poid enabled = .ok s' →
      getBalance s' userId = some (user.balance - amount) ∧
      (∀ v, v ≠ userId → getBalance s' v = getBalance s v) ∧
      ∃ t, s'.transactions = s.transactions ++ [t] ∧ t.type = .WITHDRAW ∧
        t.status = .PENDING ∧ t.stripePayoutId = some poid) := by
  constructor
  · intro s' h
    rcases createPaymentIntent_ok_elim h with ⟨user, huser, _, _, hs'⟩
    subst hs'
    refine ⟨?_, _, rfl, rfl, rfl, rfl⟩
    intro v
    cases hc : user.stripeCustomerId with
    | some c =>
      simp only [getBalance, hc]
    | none =>
      simp only [getBalance, hc]
      rw [findUser_setCustomerId]
      cases hu : findUser s.users v with
      | none => rfl
      | some u => by_cases hid : u.id = userId <;> simp [hid]
  · intro s' user huser h
    rcases createPayout_ok_elim h with ⟨user2, huser2, _, _, _, hs'⟩
    rw [huser] at huser2
    cases huser2
    subst hs'
    have hid : user.id = userId := (findUser_eq_some huser).2
    refine ⟨?_, ?_, _, rfl, rfl, rfl, rfl⟩
    · dsimp [getBalance]
      rw [findUser_mapBalance, huser]
      simp [hid]
    · intro v hv
      dsimp [getBalance]
      rw [findUser_mapBalance]
      cases hu : findUser s.users v with
      | none => rfl
      | some u =>
        have hiv : u.id ≠ userId := by rw [(findUser_eq_some hu).2]; exact hv
        simp [hiv]

/-- Witness for C9 (amended): a funding initiation of 100.00 leaves all
balances unchanged, a payout initiation of 50.00 debits the payer only. -/
theorem pending_initiation_effects_witness :
    ((∀ v, getBalance intentState v = getBalance baseState v) ∧
      ∃ t, intentState.transactions = baseState.transactions ++ [t] ∧ t.type = .ADD_FUNDS ∧
        t.status = .PENDING ∧ t.stripePaymentIntentId = some "pi_9") ∧
    (getBalance payoutState "a" = some (userA.balance - 50) ∧
      (∀ v, v ≠ "a" → getBalance payoutState v = getBalance baseState v) ∧
      ∃ t, payoutState.transactions = baseState.transactions ++ [t] ∧ t.type = .WITHDRAW ∧
        t.status = .PENDING ∧ t.stripePayoutId = some "po_1") :=
  ⟨(pending_initiation_effects baseState "a" 100 "cus_1" "pi_9" "po_1" true).1 intentState
    (by simp [createPaymentIntent, findUser, baseState, userA, userB, setCustomerId,
              intentState, intentRow]
        norm_num),
   (pending_initiation_effects baseState "a" 50 "cus_1" "pi_9" "po_1" true).2 payoutState userA
    (by simp [findUser, baseState, userA])
    (by simp [createPayout, findUser, baseState, userA, userB, mapBalance, payoutState, payoutRow]
        norm_num)⟩

/-- C10 counterexample: contrary to the final consequence of the claim, a
negative funding amount does not always strictly decrease the balance:
-0.004 rounds half-up to 0.00, so `recordFunding` commits with the balance
unchanged at 100.00. -/
theorem recordFunding_tiny_negative_counterexample :
    ((-1 : ℚ) / 250 < 0) ∧
    recordFunding baseState "a" (-1 / 250) "pi_t" none = .ok (fundZeroState, fundZeroTx) ∧
    getBalance fundZeroState "a" = some 100 ∧
    getBalance baseState "a" = some 100 := by
  refine ⟨by norm_num, ?_, ?_, ?_⟩
  · simp [recordFunding, findUser, baseState, userA, userB, mapBalance, jsRound,
          descOrDefault, fundZeroState, fundZeroTx]
    norm_num
  · simp [getBalance, findUser, fundZeroState, userA, userB]
  · simp [getBalance, findUser, baseState, userA, userB]

/-- C10 (amended): `recordFunding` applies no bounds check — for every
amount, including zero and negative values, it commits a balance change of
the half-up-rounded amount and writes a Completed ADD_FUNDS row with that
rounded amount; the 1.00-to-10000.00 funding bound is enforced only in
`createPaymentIntent`; and a negative amount strictly decreases the stored
balance whenever it is below -0.005 (so that it rounds to a negative
number of cents). -/
theorem recordFunding_no_bounds_check
    (s : LedgerState) (userId : UserId) (amount : ℚ) (ref cust iid : String)
    (d : Option String) (user : User)
    (huser : findUser s.users userId = some user) :
    (∃ s' tx, recordFunding s userId amount ref d = .ok (s', tx) ∧
      getBalance s' userId = some (user.balance + jsRound amount) ∧
      tx.type = .ADD_FUNDS ∧ tx.status = .COMPLETED ∧ tx.amount = jsRound amount ∧
      tx.stripePaymentIntentId = some ref ∧
      s'.transactions = s.transactions ++ [tx]) ∧
    (amount < -(1 / 200) → user.balance + jsRound amount < user.balance) ∧
    (amount < 1 ∨ 10000 < amount →
      createPaymentIntent s userId amount cust iid = .error .FundingAmountOutOfBounds) := by
  have hid : user.id = userId := (findUser_eq_some huser).2
  refine ⟨?_, ?_, ?_⟩
  · have hok : recordFunding s userId amount ref d = .ok
        ({ s with
            users := mapBalance s.users userId (fun b => b + jsRound amount)
            transactions := s.transactions ++
              [{ id := s.nextTxId, type := .ADD_FUNDS, amount := jsRound amount,
                 senderId := none, receiverId := some userId, status := .COMPLETED,
                 description := some (descOrDefault d "Account funding via Stripe"),
                 stripePaymentIntentId := some ref, stripePayoutId := none }]
            nextTxId := s.nextTxId + 1 },
         { id := s.nextTxId, type := .ADD_FUNDS, amount := jsRound amount,
           senderId := none, receiverId := some userId, status := .COMPLETED,
           description := some (descOrDefault d "Account funding via Stripe"),
           stripePaymentIntentId := some ref, stripePayoutId := none }) := by
      unfold recordFunding
      dsimp only
      rw [huser]
    refine ⟨_, _, hok, ?_, rfl, rfl, rfl, rfl, rfl⟩
    simp only [getBalance, findUser_mapBalance]
    rw [huser]
    simp [hid]
  · intro hneg
    have := jsRound_neg hneg
    linarith
  · intro hb
    unfold createPaymentIntent
    dsimp only
    rw [huser]
    dsimp only
    rw [if_pos hb]

/-- Witness for C10 (amended) at funding amount -5.00: the balance drops
from 100.00 to 95.00 and the same amount is rejected by
`createPaymentIntent`. -/
theorem recordFunding_no_bounds_check_witness :
    (∃ s' tx, recordFunding baseState "a" (-5) "pi_n" none = .ok (s', tx) ∧
      getBalance s' "a" = some (userA.balance + jsRound (-5)) ∧
      tx.type = .ADD_FUNDS ∧ tx.status = .COMPLETED ∧ tx.amount = jsRound (-5) ∧
      tx.stripePaymentIntentId = some "pi_n" ∧
      s'.transactions = baseState.transactions ++ [tx]) ∧
    userA.balance + jsRound (-5) < userA.balance ∧
    createPaymentIntent baseState "a" (-5) "cus_1" "pi_n" = .error .FundingAmountOutOfBounds := by
  have h := recordFunding_no_bounds_check baseState "a" (-5) "pi_n" "cus_1" "pi_n" none userA
    (by simp [findUser, baseState, userA])
  exact ⟨h.1, h.2.1 (by norm_num), h.2.2 (Or.inl (by norm_num))⟩

/-- C3: delivering the same successful-payment settlement event (same event
id and payment-intent reference) twice increments the receiver balance
exactly once: the first delivery credits the stored pending amount, and the
second delivery returns the state unchanged with a success
acknowledgement. -/
theorem webhook_success_idempotent
    (s : LedgerState) (e ref rid : String) (tx : Transaction) (b : ℚ)
    (hev : findEvent s.stripeEvents e = none)
    (htx : findPendingByIntent s.transactions ref = some tx)
    (hrid : tx.receiverId = some rid)
    (hb : getBalance s rid = some b) :
    getBalance (handleWebhookEvent s e "payment_intent.succeeded" ref).1 rid
      = some (b + tx.amount) ∧
    handleWebhookEvent (handleWebhookEvent s e "payment_intent.succeeded" ref).1
      e "payment_intent.succeeded" ref
      = ((handleWebhookEvent s e "payment_intent.succeeded" ref).1, true) := by
  have hs1 : handleWebhookEvent s e "payment_intent.succeeded" ref =
      ({ s with
          users := mapBalance s.users rid (fun x => x + tx.amount)
          transactions := setTxStatus s.transactions tx.id .COMPLETED
          stripeEvents := markEventProcessed
            (s.stripeEvents ++
              [{ stripeEventId := e, eventType := "payment_intent.succeeded",
                 processed := false }]) e }, true) := by
    unfold handleWebhookEvent
    rw [hev]
    dsimp only
    rw [if_pos rfl]
    unfold processSuccessfulPayment
    dsimp only
    rw [htx]
    dsimp only
    rw [hrid]
  constructor
  · rw [hs1]
    simp only [getBalance, findUser_mapBalance]
    cases hu : findUser s.users rid with
    | none =>
      rw [getBalance, hu] at hb
      exact absurd hb (by simp)
    | some u =>
      rw [getBalance, hu] at hb
      simp only [Option.map_some', Option.some.injEq] at hb
      have hid : u.id = rid := (findUser_eq_some hu).2
      simp [hid, hb]
  · rw [hs1]
    unfold handleWebhookEvent
    dsimp only
    rw [findEvent_markEventProcessed, findEvent_append_of_none hev]
    simp [findEvent]

/-- Witness for C3 at the spec scenario: a pending 100.00 funding row for
pi_1, receiver balance 50.00, event delivered twice. -/
theorem webhook_success_idempotent_witness :
    getBalance (handleWebhookEvent pendingFundState "evt_1" "payment_intent.succeeded" "pi_1").1 "b"
      = some (50 + pendingFundRow.amount) ∧
    handleWebhookEvent
      (handleWebhookEvent pendingFundState "evt_1" "payment_intent.succeeded" "pi_1").1
      "evt_1" "payment_intent.succeeded" "pi_1"
      = ((handleWebhookEvent pendingFundState "evt_1" "payment_intent.succeeded" "pi_1").1, true) :=
  webhook_success_idempotent pendingFundState "evt_1" "pi_1" "b" pendingFundRow 50
    (by simp [findEvent, pendingFundState])
    (by simp [findPendingByIntent, pendingFundState, pendingFundRow])
    rfl
    (by simp [getBalance, findUser, pendingFundState, userA, userB])

/-- C4: a transaction that reached a terminal status (Completed or Failed)
is never modified again: every exposed operation keeps the terminal row
unchanged in the log, and in particular a failure event arriving after a
success event already completed the referenced transaction (and vice
versa) is a full no-op, leaving statuses and balances untouched. -/
theorem terminal_immutability
    (s : LedgerState) (ref : String) :
    (∀ op tx, (s.transactions.map (fun t => t.id)).Nodup → tx ∈ s.transactions →
      tx.status = .COMPLETED ∨ tx.status = .FAILED →
      tx ∈ (applyOp s op).transactions) ∧
    (∀ tx0, findPendingByIntent s.transactions ref = some tx0 →
      (∀ t ∈ s.transactions, t.stripePaymentIntentId = some ref → t = tx0) →
      processFailedPayment (processSuccessfulPayment s ref) ref
        = processSuccessfulPayment s ref ∧
      processSuccessfulPayment (processFailedPayment s ref) ref
        = processFailedPayment s ref) := by
  constructor
  · intro op tx hnd htx hterm
    have hne_pending : tx.status ≠ .PENDING := by
      rcases hterm with h | h <;> simp [h]
    cases op with
    | sendTip a b amt d =>
      simp only [applyOp]
      cases h : sendTip s a b amt d with
      | error e => exact htx
      | ok p =>
        obtain ⟨s1, res⟩ := p
        rcases sendTip_ok_elim h with ⟨sender, receiver, _, _, _, _, _, _, _, _, hs'⟩
        subst hs'
        exact List.mem_append_left _ htx
    | recordFunding u amt r d =>
      simp only [applyOp]
      cases h : recordFunding s u amt r d with
      | error e => exact htx
      | ok p =>
        obtain ⟨s1, tx1⟩ := p
        rcases recordFunding_ok_elim h with ⟨user, _, _, hs'⟩
        subst hs'
        exact List.mem_append_left _ htx
    | recordWithdrawal u amt r d =>
      simp only [applyOp]
      cases h : recordWithdrawal s u amt r d with
      | error e => exact htx
      | ok p =>
        obtain ⟨s1, tx1⟩ := p
        rcases recordWithdrawal_ok_elim h with ⟨user, _, _, _, hs'⟩
        subst hs'
        exact List.mem_append_left _ htx
    | createPaymentIntent u amt c r =>
      simp only [applyOp]
      cases h : createPaymentIntent s u amt c r with
      | error e => exact htx
      | ok s1 =>
        rcases createPaymentIntent_ok_elim h with ⟨user, _, _, _, hs'⟩
        subst hs'
        exact List.mem_append_left _ htx
    | createPayout u amt r en =>
      simp only [applyOp]
      cases h : createPayout s u amt r en with
      | error e => exact htx
      | ok s1 =>
        rcases createPayout_ok_elim h with ⟨user, _, _, _, _, hs'⟩
        subst hs'
        exact List.mem_append_left _ htx
    | processSuccessfulPayment r =>
      simp only [applyOp]
      unfold processSuccessfulPayment
      cases hf : findPendingByIntent s.transactions r with
      | none => exact htx
      | some tx0 =>
        dsimp only
        rcases findPendingByIntent_eq_some hf with ⟨hmem0, _, hpend0⟩
        have hne : tx.id ≠ tx0.id := by
          intro hid2
          have heq : tx = tx0 := List.inj_on_of_nodup_map hnd htx hmem0 hid2
          rw [heq] at hne_pending
          exact hne_pending hpend0
        exact mem_setTxStatus_of_ne htx hne
    | processFailedPayment r =>
      simp only [applyOp]
      unfold processFailedPayment
      cases hf : findPendingByIntent s.transactions r with
      | none => exact htx
      | some tx0 =>
        dsimp only
        rcases findPendingByIntent_eq_some hf with ⟨hmem0, _, hpend0⟩
        have hne : tx.id ≠ tx0.id := by
          intro hid2
          have heq : tx = tx0 := List.inj_on_of_nodup_map hnd htx hmem0 hid2
          rw [heq] at hne_pending
          exact hne_pending hpend0
        exact mem_setTxStatus_of_ne htx hne
  · intro tx0 h0 huniq
    have hnone1 : findPendingByIntent (setTxStatus s.transactions tx0.id .COMPLETED) ref = none :=
      findPendingByIntent_setTxStatus_none huniq _ (by simp)
    have hnone2 : findPendingByIntent (setTxStatus s.transactions tx0.id .FAILED) ref = none :=
      findPendingByIntent_setTxStatus_none huniq _ (by simp)
    constructor
    · unfold processSuccessfulPayment
      rw [h0]
      dsimp only
      unfold processFailedPayment
      dsimp only
      rw [hnone1]
    · unfold processFailedPayment
      rw [h0]
      dsimp only
      unfold processSuccessfulPayment
      dsimp only
      rw [hnone2]

/-- Witness for C4: the Completed SEND_TIP row survives a settlement
operation, and success-then-failure (and the converse) on the pi_1 pending
row are no-ops after the first settlement. -/
theorem terminal_immutability_witness :
    sentRow ∈ (applyOp tipState (.processFailedPayment "pi_1")).transactions ∧
    (processFailedPayment (processSuccessfulPayment pendingFundState "pi_1") "pi_1"
       = processSuccessfulPayment pendingFundState "pi_1" ∧
     processSuccessfulPayment (processFailedPayment pendingFundState "pi_1") "pi_1"
       = processFailedPayment pendingFundState "pi_1") :=
  ⟨(terminal_immutability tipState "pi_1").1 (.processFailedPayment "pi_1") sentRow
      (by simp [tipState]) (by simp [tipState, sentRow]) (Or.inl rfl),
   (terminal_immutability pendingFundState "pi_1").2 pendingFundRow
      (by simp [findPendingByIntent, pendingFundState, pendingFundRow])
      (by intro t ht href; simpa [pendingFundState] using ht)⟩

/-- A balance update preserves non-negativity when the update function is
non-negative on every matching member. -/
theorem balancesNonneg_mapBalance {users : List User} {id : UserId} {f : ℚ → ℚ}
    (h : ∀ u ∈ users, 0 ≤ u.balance)
    (hf : ∀ u ∈ users, u.id = id → 0 ≤ f u.balance) :
    ∀ u ∈ mapBalance users id f, 0 ≤ u.balance := by
  intro u' hu'
  rcases mem_mapBalance hu' with ⟨u, hu, he⟩
  subst he
  by_cases hid : u.id = id
  · simpa [hid] using hf u hu hid
  · simpa [hid] using h u hu

/-- A status update to a non-Pending status preserves non-negativity of
pending amounts. -/
theorem pendingNonneg_setTxStatus {txs : List Transaction}
    (h : ∀ t ∈ txs, t.status = .PENDING → 0 ≤ t.amount)
    (id : Nat) (st : TransactionStatus) (hst : st ≠ .PENDING) :
    ∀ t ∈ setTxStatus txs id st, t.status = .PENDING → 0 ≤ t.amount := by
  intro t' ht' hp
  rcases List.mem_map.mp ht' with ⟨t, ht, he⟩
  subst he
  by_cases hid : t.id = id
  · simp [hid] at hp
    exact absurd hp hst
  · simp [hid] at hp ⊢
    exact h t ht hp

/-- Every committed operation preserves the ledger invariant (with
`recordFunding` restricted to non-negative amounts). -/
theorem ledgerInv_applyOp {s : LedgerState} {op : Op}
    (hinv : LedgerInv s) (hop : OpOk op) : LedgerInv (applyOp s op) := by
  obtain ⟨hnd, hbal, hpend⟩ := hinv
  cases op with
  | sendTip a b amt d =>
    simp only [applyOp]
    cases h : sendTip s a b amt d with
    | error e => exact ⟨hnd, hbal, hpend⟩
    | ok p =>
      obtain ⟨s1, res⟩ := p
      rcases sendTip_ok_elim h with
        ⟨sender, receiver, hsender, hreceiver, h0, _, _, _, hsuff, _, hs'⟩
      subst hs'
      dsimp only [LedgerInv, BalancesNonneg, PendingNonneg]
      have hrecv_mem := (findUser_eq_some hreceiver).1
      refine ⟨?_, ?_, ?_⟩
      · simpa [mapBalance_ids] using hnd
      · intro u hu
        refine balancesNonneg_mapBalance (balancesNonneg_mapBalance hbal ?_) ?_ u hu
        · intro v hv hvid
          have : 0 ≤ sender.balance - jsRound amt := sub_nonneg.mpr hsuff
          simpa using this
        · intro v hv hvid
          have h1 : 0 ≤ receiver.balance := hbal receiver hrecv_mem
          have h2 : 0 ≤ jsRound amt := jsRound_nonneg (le_of_lt h0)
          simpa using add_nonneg h1 h2
      · intro t ht hp
        simp only [List.mem_append, List.mem_cons, List.not_mem_nil, or_false] at ht
        rcases ht with ht | ht | ht
        · exact hpend t ht hp
        · rw [ht] at hp
          exact absurd hp (by simp)
        · rw [ht] at hp
          exact absurd hp (by simp)
  | recordFunding u amt r d =>
    simp only [applyOp]
    cases h : recordFunding s u amt r d with
    | error e => exact ⟨hnd, hbal, hpend⟩
    | ok p =>
      obtain ⟨s1, tx1⟩ := p
      rcases recordFunding_ok_elim h with ⟨user, huser, htx1, hs'⟩
      subst hs'
      dsimp only [LedgerInv, BalancesNonneg, PendingNonneg]
      have hjr : 0 ≤ jsRound amt := jsRound_nonneg hop
      refine ⟨?_, ?_, ?_⟩
      · simpa [mapBalance_ids] using hnd
      · intro v hv
        refine balancesNonneg_mapBalance hbal ?_ v hv
        intro w hw hwid
        exact add_nonneg (hbal w hw) hjr
      · intro t ht hp
        simp only [List.mem_append, List.mem_cons, List.not_mem_nil, or_false] at ht
        rcases ht with ht | ht
        · exact hpend t ht hp
        · rw [ht, htx1] at hp
          exact absurd hp (by simp)
  | recordWithdrawal u amt r d =>
    simp only [applyOp]
    cases h : recordWithdrawal s u amt r d with
    | error e => exact ⟨hnd, hbal, hpend⟩
    | ok p =>
      obtain ⟨s1, tx1⟩ := p
      rcases recordWithdrawal_ok_elim h with ⟨user, huser, hsuff, htx1, hs'⟩
      subst hs'
      dsimp only [LedgerInv, BalancesNonneg, PendingNonneg]
      refine ⟨?_, ?_, ?_⟩
      · simpa [mapBalance_ids] using hnd
      · intro v hv
        refine balancesNonneg_mapBalance hbal ?_ v hv
        intro w hw hwid
        have hw_eq : w = user := findUser_unique hnd huser hw hwid
        rw [hw_eq]
        exact sub_nonneg.mpr hsuff
      · intro t ht hp
        simp only [List.mem_append, List.mem_cons, List.not_mem_nil, or_false] at ht
        rcases ht with ht | ht
        · exact hpend t ht hp
        · rw [ht, htx1] at hp
          exact absurd hp (by simp)
  | createPaymentIntent u amt c r =>
    simp only [applyOp]
    cases h : createPaymentIntent s u amt c r with
    | error e => exact ⟨hnd, hbal, hpend⟩
    | ok s1 =>
      rcases createPaymentIntent_ok_elim h with ⟨user, huser, h1, _, hs'⟩
      subst hs'
      dsimp only [LedgerInv, BalancesNonneg, PendingNonneg]
      cases hc : user.stripeCustomerId with
      | some cv =>
        refine ⟨?_, ?_, ?_⟩
        · simpa [hc] using hnd
        · intro v hv
          simp only [hc] at hv
          exact hbal v hv
        · intro t ht hp
          simp only [List.mem_append, List.mem_cons, List.not_mem_nil, or_false] at ht
          rcases ht with ht | ht
          · exact hpend t ht hp
          · rw [ht]
            dsimp only
            linarith
      | none =>
        refine ⟨?_, ?_, ?_⟩
        · simpa [hc, setCustomerId_ids] using hnd
        · intro v hv
          simp only [hc] at hv
          rcases mem_setCustomerId hv with ⟨w, hw, hb⟩
          rw [hb]
          exact hbal w hw
        · intro t ht hp
          simp only [List.mem_append, List.mem_cons, List.not_mem_nil, or_false] at ht
          rcases ht with ht | ht
          · exact hpend t ht hp
          · rw [ht]
            dsimp only
            linarith
  | createPayout u amt r en =>
    simp only [applyOp]
    cases h : createPayout s u amt r en with
    | error e => exact ⟨hnd, hbal, hpend⟩
    | ok s1 =>
      rcases createPayout_ok_elim h with ⟨user, huser, _, hpos, hsuff, hs'⟩
      subst hs'
      dsimp only [LedgerInv, BalancesNonneg, PendingNonneg]
      refine ⟨?_, ?_, ?_⟩
      · simpa [mapBalance_ids] using hnd
      · intro v hv
        refine balancesNonneg_mapBalance hbal ?_ v hv
        intro w hw hwid
        have hw_eq : w = user := findUser_unique hnd huser hw hwid
        rw [hw_eq]
        exact sub_nonneg.mpr hsuff
      · intro t ht hp
        simp only [List.mem_append, List.mem_cons, List.not_mem_nil, or_false] at ht
        rcases ht with ht | ht
        · exact hpend t ht hp
        · rw [ht]
          dsimp only
          linarith
  | processSuccessfulPayment r =>
    simp only [applyOp]
    unfold processSuccessfulPayment
    cases hf : findPendingByIntent s.transactions r with
    | none => exact ⟨hnd, hbal, hpend⟩
    | some tx0 =>
      dsimp only
      rcases findPendingByIntent_eq_some hf with ⟨hmem0, _, hpend0⟩
      have hamt : 0 ≤ tx0.amount := hpend tx0 hmem0 hpend0
      cases hr : tx0.receiverId with
      | none =>
        refine ⟨by simpa using hnd, ?_, ?_⟩
        · intro v hv
          simp only [hr] at hv
          exact hbal v hv
        · exact pendingNonneg_setTxStatus hpend _ _ (by simp)
      | some rid =>
        refine ⟨?_, ?_, ?_⟩
        · simpa [hr, mapBalance_ids] using hnd
        · intro v hv
          simp only [hr] at hv
          refine balancesNonneg_mapBalance hbal ?_ v hv
          intro w hw hwid
          exact add_nonneg (hbal w hw) hamt
        · exact pendingNonneg_setTxStatus hpend _ _ (by simp)
  | processFailedPayment r =>
    simp only [applyOp]
    unfold processFailedPayment
    cases hf : findPendingByIntent s.transactions r with
    | none => exact ⟨hnd, hbal, hpend⟩
    | some tx0 =>
      dsimp only
      exact ⟨hnd, hbal, pendingNonneg_setTxStatus hpend _ _ (by simp)⟩

/-- The ledger invariant is preserved along any operation sequence. -/
theorem ledgerInv_applyOps {s : LedgerState} {ops : List Op}
    (hinv : LedgerInv s) (hops : ∀ op ∈ ops, OpOk op) : LedgerInv (applyOps s ops) := by
  induction ops generalizing s with
  | nil => exact hinv
  | cons op rest ih =>
    exact ih (ledgerInv_applyOp hinv (hops op (by simp)))
      (fun o ho => hops o (by simp [ho]))

/-- C2 (amended): starting from a well-formed state — unique user ids, all
balances non-negative, every Pending row carrying a non-negative amount —
and for sequences whose `recordFunding` calls use non-negative amounts, no
committed state has a negative balance. -/
theorem no_negative_balances
    (s0 : LedgerState) (ops : List Op)
    (hinv : LedgerInv s0) (hops : ∀ op ∈ ops, OpOk op) :
    ∀ u ∈ (applyOps s0 ops).users, 0 ≤ u.balance :=
  (ledgerInv_applyOps hinv hops).2.1

/-- C2 counterexample: as stated the claim fails, because `recordFunding`
has no amount validation: from balances (100, 50), the single operation
`recordFunding "a" (-200) "pi_z"` commits balance -100. -/
theorem no_negative_balances_counterexample :
    (∀ u ∈ baseState.users, 0 ≤ u.balance) ∧
    getBalance (applyOps baseState [.recordFunding "a" (-200) "pi_z" none]) "a"
      = some (-100) ∧
    ((-100 : ℚ) < 0) := by
  refine ⟨?_, ?_, by norm_num⟩
  · intro u hu
    simp only [baseState, List.mem_cons, List.not_mem_nil, or_false] at hu
    rcases hu with hu | hu <;> rw [hu] <;> norm_num [userA, userB]
  · simp [applyOps, applyOp, recordFunding, findUser, baseState, userA, userB,
          mapBalance, jsRound, getBalance]
    norm_num

/-- Witness for C2 (amended) on a sequence with a tip, a funding record, a
funding initiation and its settlement. -/
theorem no_negative_balances_witness :
    (applyOps baseState demoOps).users.all (fun u => decide (0 ≤ u.balance)) = true := by
  rw [List.all_eq_true]
  intro u hu
  exact decide_eq_true (no_negative_balances baseState demoOps
    (by
      refine ⟨?_, ?_, ?_⟩
      · simp [baseState, userA, userB]
      · intro v hv
        simp only [baseState, List.mem_cons, List.not_mem_nil, or_false] at hv
        rcases hv with hv | hv <;> rw [hv] <;> norm_num [userA, userB]
      · intro t ht hp
        simp [baseState] at ht)
    (by
      intro op hop
      simp only [demoOps, List.mem_cons, List.not_mem_nil, or_false] at hop
      rcases hop with h | h | h | h <;> rw [h] <;> simp [OpOk])
    u hu)

end TipSlap
